import Mathlib

/-!
# Verification of the go-pid-controller repository against its specification

The repository implements a discrete-time PID controller in Go
(`src/main.go`, package `pid`).  The source contains two variants of the
`Update` method: the primary one (lines 35–89) and a variant that guards the
D and I term computations on nonzero gains (lines 132–188).  Both share the
same `PID` struct and the same `Reset` method.

We shallowly embed the controller over the rationals `ℚ` (the Go code uses
`float64`; all the claims under consideration are about the exact arithmetic
of the algorithm, not about rounding).  Go's `time.Time` with its `IsZero`
sentinel is modelled as `Option ℚ` (`none` = the zero/unset timestamp), and
the wall clock is made explicit: every call takes the current time `now` as
an extra argument, and `dt := now - lastTime` in seconds, which is how the
code behaves under an injected deterministic clock (the specification's §6
"Time source" abstraction).
-/

/-- The `PID` struct of `src/main.go` (both variants declare the identical
struct): configuration fields `Kp`, `Ki`, `Kd`, `MinOutput`, `MaxOutput`,
`Deadband`, the observable `Saturated` flag, the `AntiWindup` switch, and the
internal state `prevError`, `integral`, `lastTime`, `lastOutput`.  Go zero
values give the initial internal state `0, 0, unset, 0`. -/
structure PID where
  Kp : ℚ
  Ki : ℚ
  Kd : ℚ
  MinOutput : ℚ
  MaxOutput : ℚ
  Deadband : ℚ
  Saturated : Bool
  AntiWindup : Bool
  prevError : ℚ
  integral : ℚ
  lastTime : Option ℚ
  lastOutput : ℚ
  deriving DecidableEq, Repr

namespace PID

/-- Lines 36–39 / 133–136: `now := time.Now(); if pid.lastTime.IsZero()
{ pid.lastTime = now }`.  An unset timestamp is initialised to the current
time; a set one is kept. -/
def initLastTime (pid : PID) (now : ℚ) : PID :=
  if pid.lastTime = none then { pid with lastTime := some now } else pid

/-- Lines 41 / 138: `dt := time.Since(pid.lastTime).Seconds()`, the elapsed
seconds since the (already initialised) last-update timestamp.  (At this
point the timestamp is always set; the `none` fallback yields `dt = 0`.) -/
def elapsed (pid : PID) (now : ℚ) : ℚ :=
  now - pid.lastTime.getD now

/-- Lines 58 / spec step 7: the candidate integral accumulation of the
primary `Update`, `integral := pid.integral + (0.5 * dt * (error +
pid.prevError))` — trapezoidal increment added onto the accumulated sum. -/
def candidateIntegral (pid : PID) (error dt : ℚ) : ℚ :=
  pid.integral + (0.5 * dt * (error + pid.prevError))

/-- Line 161: the candidate integral of the variant `Update`,
`integral := 0.5 * dt * (error + pid.prevError)` — the bare trapezoidal
increment (the previously accumulated `pid.integral` is not added). -/
def candidateIntegralV2 (pid : PID) (error dt : ℚ) : ℚ :=
  0.5 * dt * (error + pid.prevError)

/-- Lines 66–77 / 169–176: clamp `output` to `[MinOutput, MaxOutput]` and
compute the new saturation flag from the sign of the error: above the
maximum the flag is `error > 0`, below the minimum it is `error < 0`,
otherwise `false`.  (Both variants compute exactly this; the primary one
builds the flag with nested `if`s starting from `false`.) -/
def clampOutput (pid : PID) (error output : ℚ) : ℚ × Bool :=
  if output > pid.MaxOutput then (pid.MaxOutput, decide (error > 0))
  else if output < pid.MinOutput then (pid.MinOutput, decide (error < 0))
  else (output, false)

/-- Lines 79–86 / 178–185: the state-update step shared by both variants.
`prevError`, `lastTime`, `lastOutput` and `Saturated` are always written;
the integral accumulator is advanced to the candidate only under
`pid.AntiWindup && !pid.Saturated`, where `pid.Saturated` is the freshly
written flag. -/
def commitState (pid : PID) (error now output candidate : ℚ)
    (saturated : Bool) : PID :=
  let pid := { pid with prevError := error, lastTime := some now,
                        lastOutput := output, Saturated := saturated }
  if pid.AntiWindup && !pid.Saturated then { pid with integral := candidate }
  else pid

/-- The primary `Update` (src/main.go lines 35–89), with the clock reading
passed in as `now`.  Returns the control output together with the
post-call controller state. -/
def update (pid : PID) (setpoint measured now : ℚ) : ℚ × PID :=
  let pid := pid.initLastTime now
  let dt := pid.elapsed now
  if dt ≤ 0 then (pid.lastOutput, pid)
  else
    let error := setpoint - measured
    if |error| < pid.Deadband then (pid.lastOutput, pid)
    else
      let pTerm := pid.Kp * error
      let dTerm := pid.Kd * (error - pid.prevError) / dt
      let integral := pid.candidateIntegral error dt
      let iTerm := pid.Ki * pid.integral
      let output := pTerm + iTerm + dTerm
      let os := pid.clampOutput error output
      (os.1, pid.commitState error now os.1 integral os.2)

/-- The variant `Update` (src/main.go lines 132–188): identical control
flow, but the D and I terms are computed only when the corresponding gain is
nonzero, and the candidate integral omits the previously accumulated sum. -/
def updateV2 (pid : PID) (setpoint measured now : ℚ) : ℚ × PID :=
  let pid := pid.initLastTime now
  let dt := pid.elapsed now
  if dt ≤ 0 then (pid.lastOutput, pid)
  else
    let error := setpoint - measured
    if |error| < pid.Deadband then (pid.lastOutput, pid)
    else
      let pTerm := pid.Kp * error
      let dTerm := if pid.Kd ≠ 0 then pid.Kd * (error - pid.prevError) / dt else 0
      let integral := pid.candidateIntegralV2 error dt
      let iTerm := if pid.Ki ≠ 0 then pid.Ki * pid.integral else 0
      let output := pTerm + iTerm + dTerm
      let os := pid.clampOutput error output
      (os.1, pid.commitState error now os.1 integral os.2)

/-- `Reset` (src/main.go lines 93–97 / 192–196): zero `prevError` and
`integral`, stamp `lastTime` with the current time; every other field is
untouched. -/
def reset (pid : PID) (now : ℚ) : PID :=
  { pid with prevError := 0, integral := 0, lastTime := some now }

/-- A freshly constructed controller: caller-chosen configuration, Go zero
values for the internal state (`Saturated` starts `false`; `lastTime` is
the unset sentinel). -/
def mk0 (kp ki kd mn mx db : ℚ) (aw : Bool) : PID :=
  { Kp := kp, Ki := ki, Kd := kd, MinOutput := mn, MaxOutput := mx,
    Deadband := db, Saturated := false, AntiWindup := aw,
    prevError := 0, integral := 0, lastTime := none, lastOutput := 0 }

/-- The reachable controller states: a freshly constructed controller, and
anything obtained from a reachable state by an `Update` (at any inputs and
any clock reading) or a `Reset`. -/
inductive Reach : PID → Prop where
  | init (kp ki kd mn mx db : ℚ) (aw : Bool) : Reach (mk0 kp ki kd mn mx db aw)
  | step (s : PID) (sp meas now : ℚ) : Reach s → Reach (s.update sp meas now).2
  | reset (s : PID) (now : ℚ) : Reach s → Reach (s.reset now)

end PID

/-! ## Concrete controller states used in the witnesses and counterexamples -/

/-- A controller with integral gain `1` and anti-windup disabled, one
second after its previous update. -/
def c1pid : PID :=
  { Kp := 1, Ki := 1, Kd := 0, MinOutput := -100, MaxOutput := 100, Deadband := 0,
    Saturated := false, AntiWindup := false, prevError := 0, integral := 0,
    lastTime := some 0, lastOutput := 0 }

/-- A freshly constructed controller whose bounds do not bracket zero. -/
def c2pid : PID := PID.mk0 1 0 0 5 10 0 false

/-- A controller with a nonzero accumulated integral `1`, anti-windup
enabled, far from saturation. -/
def c3pid : PID :=
  { Kp := 1, Ki := 0, Kd := 0, MinOutput := -100, MaxOutput := 100, Deadband := 0,
    Saturated := false, AntiWindup := true, prevError := 0, integral := 1,
    lastTime := some 0, lastOutput := 0 }

/-- A controller state for exercising the one-call lag of the integral
term: nonzero stored integral `3` and integral gain `2`. -/
def c4pid : PID :=
  { Kp := 1, Ki := 2, Kd := 1, MinOutput := -100, MaxOutput := 100, Deadband := 0,
    Saturated := false, AntiWindup := true, prevError := 1, integral := 3,
    lastTime := some 0, lastOutput := 0 }

/-- A controller that has never been updated: unset timestamp, stored
output `7`. -/
def c5pid : PID :=
  { Kp := 1, Ki := 0, Kd := 0, MinOutput := -100, MaxOutput := 100, Deadband := 0,
    Saturated := false, AntiWindup := false, prevError := 0, integral := 0,
    lastTime := none, lastOutput := 7 }

/-- A controller whose last update happened at time `5`, queried at the
earlier clock reading `3`. -/
def c5wpid : PID :=
  { Kp := 1, Ki := 0, Kd := 0, MinOutput := -100, MaxOutput := 100, Deadband := 0,
    Saturated := true, AntiWindup := false, prevError := 4, integral := 2,
    lastTime := some 5, lastOutput := 9 }

/-- The deadband scenario of the test table: `Kp = 1`, deadband `2`, no
prior full update (stored output `0`). -/
def c6pid : PID :=
  { Kp := 1, Ki := 0, Kd := 0, MinOutput := -100, MaxOutput := 100, Deadband := 2,
    Saturated := false, AntiWindup := false, prevError := 0, integral := 0,
    lastTime := some 0, lastOutput := 0 }

/-- The saturation scenario of the test table: `Kp = 10`, bounds
`[-20, 20]`. -/
def c7pid : PID :=
  { Kp := 10, Ki := 0, Kd := 0, MinOutput := -20, MaxOutput := 20, Deadband := 0,
    Saturated := false, AntiWindup := false, prevError := 0, integral := 0,
    lastTime := some 0, lastOutput := 0 }

/-- The pure proportional scenario of the test table: `Kp = 1`, bounds
`[-100, 100]`, no deadband. -/
def c8pid : PID :=
  { Kp := 1, Ki := 0, Kd := 0, MinOutput := -100, MaxOutput := 100, Deadband := 0,
    Saturated := false, AntiWindup := false, prevError := 0, integral := 0,
    lastTime := some 0, lastOutput := 0 }

/-- The same state as `c3pid`, used to separate the two `Update`
implementations. -/
def c10pid : PID :=
  { Kp := 1, Ki := 0, Kd := 0, MinOutput := -100, MaxOutput := 100, Deadband := 0,
    Saturated := false, AntiWindup := true, prevError := 0, integral := 1,
    lastTime := some 0, lastOutput := 0 }

namespace PID

/-! ## Path lemmas: the three control-flow paths of `Update` -/

/-- With an unset timestamp the timestamp is initialised to `now`, `dt = 0`,
and the call short-circuits with the previous output. -/
lemma update_of_unset (pid : PID) (sp meas now : ℚ) (h : pid.lastTime = none) :
    pid.update sp meas now = (pid.lastOutput, { pid with lastTime := some now }) := by
  simp [update, initLastTime, elapsed, h]

/-- With a set timestamp and `dt ≤ 0`, `Update` returns the previous output
and leaves the state exactly as it was. -/
lemma update_of_dt_nonpos (pid : PID) (sp meas now t : ℚ) (h : pid.lastTime = some t)
    (hdt : now - t ≤ 0) : pid.update sp meas now = (pid.lastOutput, pid) := by
  simp [update, initLastTime, elapsed, h, hdt]

/-- With `dt > 0` but `|error|` inside the deadband, `Update` returns the
previous output and leaves the state exactly as it was. -/
lemma update_of_deadband (pid : PID) (sp meas now t : ℚ) (h : pid.lastTime = some t)
    (hdt : 0 < now - t) (hdb : |sp - meas| < pid.Deadband) :
    pid.update sp meas now = (pid.lastOutput, pid) := by
  simp [update, initLastTime, elapsed, h, hdt.not_le, hdb]

/-- On the full path (`dt > 0`, `|error|` at least the deadband) the primary
`Update` clamps `Kp·e + Ki·integral + Kd·(e − prevError)/dt` and commits the
state with the trapezoidal candidate. -/
lemma update_full_eq (pid : PID) (sp meas now t : ℚ) (h : pid.lastTime = some t)
    (hdt : 0 < now - t) (hdb : pid.Deadband ≤ |sp - meas|) :
    pid.update sp meas now =
      ((pid.clampOutput (sp - meas)
          (pid.Kp * (sp - meas) + pid.Ki * pid.integral +
            pid.Kd * ((sp - meas) - pid.prevError) / (now - t))).1,
        pid.commitState (sp - meas) now
          (pid.clampOutput (sp - meas)
            (pid.Kp * (sp - meas) + pid.Ki * pid.integral +
              pid.Kd * ((sp - meas) - pid.prevError) / (now - t))).1
          (pid.candidateIntegral (sp - meas) (now - t))
          (pid.clampOutput (sp - meas)
            (pid.Kp * (sp - meas) + pid.Ki * pid.integral +
              pid.Kd * ((sp - meas) - pid.prevError) / (now - t))).2) := by
  simp [update, initLastTime, elapsed, h, hdt.not_le, not_lt.mpr hdb]

/-- Variant analogue of `update_of_unset`. -/
lemma updateV2_of_unset (pid : PID) (sp meas now : ℚ) (h : pid.lastTime = none) :
    pid.updateV2 sp meas now = (pid.lastOutput, { pid with lastTime := some now }) := by
  simp [updateV2, initLastTime, elapsed, h]

/-- Variant analogue of `update_of_dt_nonpos`. -/
lemma updateV2_of_dt_nonpos (pid : PID) (sp meas now t : ℚ) (h : pid.lastTime = some t)
    (hdt : now - t ≤ 0) : pid.updateV2 sp meas now = (pid.lastOutput, pid) := by
  simp [updateV2, initLastTime, elapsed, h, hdt]

/-- Variant analogue of `update_of_deadband`. -/
lemma updateV2_of_deadband (pid : PID) (sp meas now t : ℚ) (h : pid.lastTime = some t)
    (hdt : 0 < now - t) (hdb : |sp - meas| < pid.Deadband) :
    pid.updateV2 sp meas now = (pid.lastOutput, pid) := by
  simp [updateV2, initLastTime, elapsed, h, hdt.not_le, hdb]

/-- On the full path the variant `Update` clamps the same expression with
its gain guards in place, and commits the bare-increment candidate. -/
lemma updateV2_full_eq (pid : PID) (sp meas now t : ℚ) (h : pid.lastTime = some t)
    (hdt : 0 < now - t) (hdb : pid.Deadband ≤ |sp - meas|) :
    pid.updateV2 sp meas now =
      ((pid.clampOutput (sp - meas)
          (pid.Kp * (sp - meas) +
            (if pid.Ki ≠ 0 then pid.Ki * pid.integral else 0) +
            (if pid.Kd ≠ 0 then pid.Kd * ((sp - meas) - pid.prevError) / (now - t) else 0))).1,
        pid.commitState (sp - meas) now
          (pid.clampOutput (sp - meas)
            (pid.Kp * (sp - meas) +
              (if pid.Ki ≠ 0 then pid.Ki * pid.integral else 0) +
              (if pid.Kd ≠ 0 then pid.Kd * ((sp - meas) - pid.prevError) / (now - t) else 0))).1
          (pid.candidateIntegralV2 (sp - meas) (now - t))
          (pid.clampOutput (sp - meas)
            (pid.Kp * (sp - meas) +
              (if pid.Ki ≠ 0 then pid.Ki * pid.integral else 0) +
              (if pid.Kd ≠ 0 then pid.Kd * ((sp - meas) - pid.prevError) / (now - t) else 0))).2) := by
  simp [updateV2, initLastTime, elapsed, h, hdt.not_le, not_lt.mpr hdb]

/-! ## Projection lemmas for the committed state -/

lemma commitState_prevError (pid : PID) (e now o c : ℚ) (sat : Bool) :
    (pid.commitState e now o c sat).prevError = e := by
  simp only [commitState, apply_ite PID.prevError]
  simp

lemma commitState_lastTime (pid : PID) (e now o c : ℚ) (sat : Bool) :
    (pid.commitState e now o c sat).lastTime = some now := by
  simp only [commitState, apply_ite PID.lastTime]
  simp

lemma commitState_lastOutput (pid : PID) (e now o c : ℚ) (sat : Bool) :
    (pid.commitState e now o c sat).lastOutput = o := by
  simp only [commitState, apply_ite PID.lastOutput]
  simp

lemma commitState_Saturated (pid : PID) (e now o c : ℚ) (sat : Bool) :
    (pid.commitState e now o c sat).Saturated = sat := by
  simp only [commitState, apply_ite PID.Saturated]
  simp

lemma commitState_integral (pid : PID) (e now o c : ℚ) (sat : Bool) :
    (pid.commitState e now o c sat).integral =
      if pid.AntiWindup && !sat then c else pid.integral := by
  simp [commitState, apply_ite PID.integral]

lemma commitState_MinOutput (pid : PID) (e now o c : ℚ) (sat : Bool) :
    (pid.commitState e now o c sat).MinOutput = pid.MinOutput := by
  simp only [commitState, apply_ite PID.MinOutput]
  simp

lemma commitState_MaxOutput (pid : PID) (e now o c : ℚ) (sat : Bool) :
    (pid.commitState e now o c sat).MaxOutput = pid.MaxOutput := by
  simp only [commitState, apply_ite PID.MaxOutput]
  simp

/-- The clamped output lies in `[MinOutput, MaxOutput]` whenever the bounds
are ordered. -/
lemma clampOutput_mem (pid : PID) (e o : ℚ) (h : pid.MinOutput ≤ pid.MaxOutput) :
    pid.MinOutput ≤ (pid.clampOutput e o).1 ∧ (pid.clampOutput e o).1 ≤ pid.MaxOutput := by
  unfold clampOutput
  split_ifs with h1 h2
  · exact ⟨h, le_rfl⟩
  · exact ⟨le_rfl, h⟩
  · exact ⟨not_lt.mp h2, not_lt.mp h1⟩

/-- Repeating an `Update` call with the same inputs and the same clock
reading is a no-op: the second call returns the same output and final
state as the first. -/
lemma update_idem (pid : PID) (sp meas now : ℚ) :
    (pid.update sp meas now).2.update sp meas now = pid.update sp meas now := by
  rcases h : pid.lastTime with _ | t
  · rw [update_of_unset pid sp meas now h,
      update_of_dt_nonpos _ sp meas now now rfl (by norm_num)]
  · rcases le_or_lt (now - t) 0 with hdt | hdt
    · rw [update_of_dt_nonpos pid sp meas now t h hdt]
      exact update_of_dt_nonpos pid sp meas now t h hdt
    · rcases lt_or_le |sp - meas| pid.Deadband with hdb | hdb
      · rw [update_of_deadband pid sp meas now t h hdt hdb]
        exact update_of_deadband pid sp meas now t h hdt hdb
      · rw [update_full_eq pid sp meas now t h hdt hdb,
          update_of_dt_nonpos _ sp meas now now (commitState_lastTime _ _ _ _ _ _)
            (by norm_num), commitState_lastOutput]

/-- The variant's gain-guarded raw output coincides with the primary raw
output: a zero gain contributes a zero term either way. -/
lemma rawV2_eq (pid : PID) (e d : ℚ) :
    pid.Kp * e + (if pid.Ki ≠ 0 then pid.Ki * pid.integral else 0) +
      (if pid.Kd ≠ 0 then pid.Kd * (e - pid.prevError) / d else 0) =
    pid.Kp * e + pid.Ki * pid.integral + pid.Kd * (e - pid.prevError) / d := by
  rcases eq_or_ne pid.Ki 0 with hKi | hKi <;> rcases eq_or_ne pid.Kd 0 with hKd | hKd <;>
    simp [hKi, hKd]

/-- Invariant of the reachable states: as long as the configured bounds
bracket zero, the stored last output lies inside them.  (A freshly
constructed controller stores `0`; every full update stores a clamped
value; short-circuits and `Reset` keep the stored value.) -/
lemma lastOutput_mem_of_reach (s : PID) (hs : Reach s) :
    s.MinOutput ≤ 0 → 0 ≤ s.MaxOutput →
    s.MinOutput ≤ s.lastOutput ∧ s.lastOutput ≤ s.MaxOutput := by
  induction hs with
  | init kp ki kd mn mx db aw => exact fun h1 h2 => ⟨h1, h2⟩
  | reset s now hs ih => exact fun h1 h2 => ih h1 h2
  | step s sp meas now hs ih =>
    intro h1 h2
    rcases h : s.lastTime with _ | t
    · rw [update_of_unset s sp meas now h] at h1 h2 ⊢
      exact ih h1 h2
    · rcases le_or_lt (now - t) 0 with hdt | hdt
      · rw [update_of_dt_nonpos s sp meas now t h hdt] at h1 h2 ⊢
        exact ih h1 h2
      · rcases lt_or_le |sp - meas| s.Deadband with hdb | hdb
        · rw [update_of_deadband s sp meas now t h hdt hdb] at h1 h2 ⊢
          exact ih h1 h2
        · simp only [update_full_eq s sp meas now t h hdt hdb, commitState_MinOutput,
            commitState_MaxOutput, commitState_lastOutput] at h1 h2 ⊢
          exact clampOutput_mem s _ _ (h1.trans h2)

end PID

/-- Relation between the two variants' committed integrals: when the
anti-windup guard blocks the write both keep the old value; when it fires,
the first candidate exceeds the second by exactly the old accumulator. -/
lemma commitState_integral_rel (pid : PID) (e now o c1 c2 : ℚ) (sat : Bool)
    (hc : c1 = pid.integral + c2) :
    (pid.commitState e now o c1 sat).integral =
        (pid.commitState e now o c2 sat).integral ∨
      (pid.commitState e now o c1 sat).integral =
        pid.integral + (pid.commitState e now o c2 sat).integral := by
  simp only [PID.commitState_integral]
  cases h : (pid.AntiWindup && !sat)
  · exact Or.inl (by simp)
  · exact Or.inr (by simp [hc])

/-! ## The claims -/

/-- C4: on every `Update` call that reaches the term-computation steps, the
returned output is the clamp of `Kp·error + Ki·integral + Kd·(error −
prevError)/dt` where `integral` is the accumulator from before the call:
the freshly computed trapezoidal candidate never enters the current
output. -/
theorem c4_integral_term_uses_previous_integral (pid : PID) (sp meas now t : ℚ)
    (ht : pid.lastTime = some t) (hdt : 0 < now - t)
    (hdb : pid.Deadband ≤ |sp - meas|) :
    (pid.update sp meas now).1 =
      (pid.clampOutput (sp - meas)
        (pid.Kp * (sp - meas) + pid.Ki * pid.integral +
          pid.Kd * ((sp - meas) - pid.prevError) / (now - t))).1 := by
  rw [PID.update_full_eq pid sp meas now t ht hdt hdb]

/-- C4 witness: with `Kp = 1`, `Ki = 2`, `Kd = 1`, stored integral `3`,
previous error `1`, `dt = 1` and error `5`, the output is
`1·5 + 2·3 + 1·(5−1)/1 = 15` — computed from the stored integral `3`, not
from the fresh candidate. -/
theorem c4_witness : (c4pid.update 10 5 1).1 = 15 := by
  have h := c4_integral_term_uses_previous_integral c4pid 10 5 1 0 rfl (by norm_num)
    (by norm_num [c4pid])
  rw [h]
  norm_num [c4pid, PID.clampOutput]

/-- C6: with `dt > 0` and `|error|` strictly below the deadband, `Update`
returns the stored last output (the value the immediately preceding call
returned, `0` before any full update) and the whole state — in particular
`prevError`, `integral` and `lastTime` — is unchanged. -/
theorem c6_deadband_frame (pid : PID) (sp meas now t : ℚ)
    (ht : pid.lastTime = some t) (hdt : 0 < now - t)
    (hdb : |sp - meas| < pid.Deadband) :
    (pid.update sp meas now).1 = pid.lastOutput ∧
    (pid.update sp meas now).2.prevError = pid.prevError ∧
    (pid.update sp meas now).2.integral = pid.integral ∧
    (pid.update sp meas now).2.lastTime = pid.lastTime ∧
    (pid.update sp meas now).2 = pid := by
  rw [PID.update_of_deadband pid sp meas now t ht hdt hdb]
  exact ⟨rfl, rfl, rfl, rfl, rfl⟩

/-- C6 witness: setpoint `10`, measured `9` (error `1 < 2`) returns the
prior `0` and leaves the state untouched. -/
theorem c6_witness :
    (c6pid.update 10 9 1).1 = c6pid.lastOutput ∧ (c6pid.update 10 9 1).2 = c6pid := by
  have h := c6_deadband_frame c6pid 10 9 1 0 rfl (by norm_num) (by norm_num [c6pid])
  exact ⟨h.1, h.2.2.2.2⟩

/-- C8: for a pure proportional controller (`Ki = Kd = 0`), on a full
update whose raw value lies within the bounds, the output is exactly
`Kp · (setpoint − measured)`. -/
theorem c8_pure_proportional (pid : PID) (sp meas now t : ℚ)
    (hKi : pid.Ki = 0) (hKd : pid.Kd = 0)
    (ht : pid.lastTime = some t) (hdt : 0 < now - t)
    (hdb : pid.Deadband ≤ |sp - meas|)
    (hmin : pid.MinOutput ≤ pid.Kp * (sp - meas))
    (hmax : pid.Kp * (sp - meas) ≤ pid.MaxOutput) :
    (pid.update sp meas now).1 = pid.Kp * (sp - meas) := by
  rw [PID.update_full_eq pid sp meas now t ht hdt hdb, hKi, hKd]
  simp only [zero_mul, zero_div, add_zero]
  unfold PID.clampOutput
  rw [if_neg (not_lt.mpr hmax), if_neg (not_lt.mpr hmin)]

/-- C8 witness: setpoint `10`, measured `5` gives output `5`. -/
theorem c8_witness : (c8pid.update 10 5 1).1 = 5 := by
  have h := c8_pure_proportional c8pid 10 5 1 0 rfl rfl rfl (by norm_num)
    (by norm_num [c8pid]) (by norm_num [c8pid]) (by norm_num [c8pid])
  rw [h]
  norm_num [c8pid]

/-- C9: `Reset` zeroes `prevError` and `integral`, stamps `lastTime` with
the current time (never the unset sentinel), and changes nothing else: the
stored last output, the saturation flag and the whole configuration keep
their prior values. -/
theorem c9_reset_frame (pid : PID) (now : ℚ) :
    (pid.reset now).prevError = 0 ∧
    (pid.reset now).integral = 0 ∧
    (pid.reset now).lastTime = some now ∧
    (pid.reset now).lastTime ≠ none ∧
    (pid.reset now).lastOutput = pid.lastOutput ∧
    (pid.reset now).Saturated = pid.Saturated ∧
    (pid.reset now).Kp = pid.Kp ∧
    (pid.reset now).Ki = pid.Ki ∧
    (pid.reset now).Kd = pid.Kd ∧
    (pid.reset now).MinOutput = pid.MinOutput ∧
    (pid.reset now).MaxOutput = pid.MaxOutput ∧
    (pid.reset now).Deadband = pid.Deadband ∧
    (pid.reset now).AntiWindup = pid.AntiWindup := by
  simp [PID.reset]

/-- C5 counterexample: an `Update` on an unset timestamp at clock reading
`0` computes `dt = 0 ≤ 0` and returns the previous output `7`, yet it does
mutate state — the last-update timestamp changes from the unset sentinel to
`some 0`, contradicting the claim that every `dt ≤ 0` call leaves all
internal state (the timestamp included) unchanged. -/
theorem c5_counterexample :
    c5pid.lastTime = none ∧
    (c5pid.initLastTime 0).elapsed 0 ≤ 0 ∧
    (c5pid.update 1 2 0).1 = c5pid.lastOutput ∧
    (c5pid.update 1 2 0).2.lastTime = some 0 ∧
    (c5pid.update 1 2 0).2.lastTime ≠ c5pid.lastTime := by
  have h := PID.update_of_unset c5pid 1 2 0 rfl
  refine ⟨rfl, by norm_num [c5pid, PID.initLastTime, PID.elapsed], ?_, ?_, ?_⟩
  · rw [h]
  · rw [h]
  · rw [h]
    simp [c5pid]

/-- C5 (amended): for every state whose last-update timestamp is set, an
`Update` whose elapsed time is zero or negative returns the previously
computed output and leaves the state exactly unchanged; and repeating any
`Update` call with the same inputs and clock reading is a no-op (identical
output, identical final state). -/
theorem c5_dt_nonpos_frame :
    (∀ (pid : PID) (sp meas now t : ℚ), pid.lastTime = some t → now - t ≤ 0 →
      pid.update sp meas now = (pid.lastOutput, pid)) ∧
    (∀ (pid : PID) (sp meas now : ℚ),
      (pid.update sp meas now).2.update sp meas now = pid.update sp meas now) :=
  ⟨PID.update_of_dt_nonpos, PID.update_idem⟩

/-- C5 witness: with the clock not advanced (`dt = 3 − 5 ≤ 0`) the call
returns the stored `9` and the state is exactly unchanged. -/
theorem c5_witness : c5wpid.update 1 2 3 = (c5wpid.lastOutput, c5wpid) :=
  c5_dt_nonpos_frame.1 c5wpid 1 2 3 5 rfl (by norm_num)

/-- C7: on every full update, the output/flag pair follows the clamping
chain of the source: raw above the maximum gives the maximum with the flag
`error > 0`; otherwise raw below the minimum gives the minimum with the
flag `error < 0`; otherwise the raw value with the flag `false` — the sign
of the error, not of the output, governs the flag. -/
theorem c7_clamp_and_saturation (pid : PID) (sp meas now t raw : ℚ)
    (ht : pid.lastTime = some t) (hdt : 0 < now - t)
    (hdb : pid.Deadband ≤ |sp - meas|)
    (hraw : raw = pid.Kp * (sp - meas) + pid.Ki * pid.integral +
      pid.Kd * ((sp - meas) - pid.prevError) / (now - t)) :
    (raw > pid.MaxOutput →
      (pid.update sp meas now).1 = pid.MaxOutput ∧
      (pid.update sp meas now).2.Saturated = decide (sp - meas > 0)) ∧
    (¬ raw > pid.MaxOutput → raw < pid.MinOutput →
      (pid.update sp meas now).1 = pid.MinOutput ∧
      (pid.update sp meas now).2.Saturated = decide (sp - meas < 0)) ∧
    (¬ raw > pid.MaxOutput → ¬ raw < pid.MinOutput →
      (pid.update sp meas now).1 = raw ∧
      (pid.update sp meas now).2.Saturated = false) := by
  subst hraw
  simp only [PID.update_full_eq pid sp meas now t ht hdt hdb, PID.commitState_Saturated]
  unfold PID.clampOutput
  refine ⟨fun h1 => ?_, fun h1 h2 => ?_, fun h1 h2 => ?_⟩
  · rw [if_pos h1]
    exact ⟨rfl, rfl⟩
  · rw [if_neg h1, if_pos h2]
    exact ⟨rfl, rfl⟩
  · rw [if_neg h1, if_neg h2]
    exact ⟨rfl, rfl⟩

/-- C7 witness: setpoint `10`, measured `5` gives raw `50`, output clamped
to `20`, saturation flag `true`. -/
theorem c7_witness :
    (c7pid.update 10 5 1).1 = 20 ∧ (c7pid.update 10 5 1).2.Saturated = true := by
  have h := (c7_clamp_and_saturation c7pid 10 5 1 0 50 rfl (by norm_num)
    (by norm_num [c7pid]) (by norm_num [c7pid])).1 (by norm_num [c7pid])
  refine ⟨?_, ?_⟩
  · rw [h.1]; norm_num [c7pid]
  · rw [h.2]; norm_num

/-- C2 counterexample: the initial state is reachable, its bounds satisfy
`MinOutput ≤ MaxOutput`, yet the very first `Update` (which takes the
`dt ≤ 0` short-circuit) returns the initial stored output `0`, strictly
below the configured minimum `5`. -/
theorem c2_counterexample :
    PID.Reach c2pid ∧ c2pid.MinOutput ≤ c2pid.MaxOutput ∧
    (c2pid.update 0 0 0).1 < c2pid.MinOutput := by
  refine ⟨PID.Reach.init 1 0 0 5 10 0 false, by norm_num [c2pid, PID.mk0], ?_⟩
  rw [PID.update_of_unset c2pid 0 0 0 rfl]
  norm_num [c2pid, PID.mk0]

/-- C2 (amended): for every reachable state whose configured bounds bracket
zero (`MinOutput ≤ 0 ≤ MaxOutput`, which in particular orders them), every
`Update` — the `dt ≤ 0` and deadband short-circuits included — returns a
value in `[MinOutput, MaxOutput]`.  (Bracketing zero is what makes the
initial stored output `0` admissible; with `MinOutput ≤ MaxOutput` alone
the first short-circuited call can return `0` outside the bounds.) -/
theorem c2_output_in_bounds (s : PID) (sp meas now : ℚ) (hs : PID.Reach s)
    (hmn : s.MinOutput ≤ 0) (hmx : 0 ≤ s.MaxOutput) :
    s.MinOutput ≤ (s.update sp meas now).1 ∧ (s.update sp meas now).1 ≤ s.MaxOutput := by
  rcases h : s.lastTime with _ | t
  · rw [PID.update_of_unset s sp meas now h]
    exact PID.lastOutput_mem_of_reach s hs hmn hmx
  · rcases le_or_lt (now - t) 0 with hdt | hdt
    · rw [PID.update_of_dt_nonpos s sp meas now t h hdt]
      exact PID.lastOutput_mem_of_reach s hs hmn hmx
    · rcases lt_or_le |sp - meas| s.Deadband with hdb | hdb
      · rw [PID.update_of_deadband s sp meas now t h hdt hdb]
        exact PID.lastOutput_mem_of_reach s hs hmn hmx
      · simp only [PID.update_full_eq s sp meas now t h hdt hdb]
        exact PID.clampOutput_mem s _ _ (hmn.trans hmx)

/-- C2 witness: a freshly constructed controller with bounds `[-1, 1]`,
updated at clock reading `0`: the returned output lies within the
bounds. -/
theorem c2_witness :
    (PID.mk0 1 0 0 (-1) 1 0 false).MinOutput ≤
        ((PID.mk0 1 0 0 (-1) 1 0 false).update 5 5 0).1 ∧
      ((PID.mk0 1 0 0 (-1) 1 0 false).update 5 5 0).1 ≤
        (PID.mk0 1 0 0 (-1) 1 0 false).MaxOutput :=
  c2_output_in_bounds (PID.mk0 1 0 0 (-1) 1 0 false) 5 5 0
    (PID.Reach.init 1 0 0 (-1) 1 0 false) (by norm_num [PID.mk0]) (by norm_num [PID.mk0])

/-- C1: evaluation of the code at the failing input.  Anti-windup is
disabled and the update runs the full path unsaturated (`prevError` is
written, the new flag is `false`), the trapezoidal candidate is `5/2`, yet
the integral accumulator keeps its previous value `0` instead of advancing
to the candidate: the guard `pid.AntiWindup && !pid.Saturated` freezes the
integral whenever anti-windup is disabled, while the claim (and the spec)
advance it in that case. -/
theorem c1_antiwindup_disabled_freezes_integral :
    c1pid.AntiWindup = false ∧
    (c1pid.update 10 5 1).2.prevError = 5 ∧
    (c1pid.update 10 5 1).2.Saturated = false ∧
    c1pid.candidateIntegral (10 - 5) (1 - 0) = 5 / 2 ∧
    (c1pid.update 10 5 1).2.integral = c1pid.integral ∧
    c1pid.integral ≠ 5 / 2 := by
  have h := PID.update_full_eq c1pid 10 5 1 0 rfl (by norm_num) (by norm_num [c1pid])
  refine ⟨rfl, ?_, ?_, by norm_num [c1pid, PID.candidateIntegral], ?_, by norm_num [c1pid]⟩
  · simp only [h, PID.commitState_prevError]
    norm_num
  · simp only [h, PID.commitState_Saturated]
    norm_num [c1pid, PID.clampOutput]
  · simp only [h, PID.commitState_integral]
    norm_num [c1pid]

/-- C3 counterexample: on a full unsaturated update of the variant
implementation (line 161) with previous integral `1`, `dt = 1` and error
`5`, the accumulator is advanced to the bare increment `5/2` — not to
`previous_integral + 0.5·dt·(error + previous_error) = 7/2` as the claim
states for that line. -/
theorem c3_counterexample :
    (c3pid.updateV2 10 5 1).2.integral = 5 / 2 ∧
    c3pid.integral + 0.5 * ((1 : ℚ) - 0) * (((10 : ℚ) - 5) + c3pid.prevError) = 7 / 2 ∧
    ((5 : ℚ) / 2) ≠ 7 / 2 := by
  have h := PID.updateV2_full_eq c3pid 10 5 1 0 rfl (by norm_num) (by norm_num [c3pid])
  refine ⟨?_, by norm_num [c3pid], by norm_num⟩
  simp only [h, PID.commitState_integral]
  norm_num [c3pid, PID.clampOutput, PID.candidateIntegralV2]

/-- C3 (amended): on every full update that actually advances the
accumulator (anti-windup enabled, new saturation flag `false`), the
primary implementation (line 58) advances it to `previous_integral +
0.5·dt·(error + previous_error)` — the trapezoidal increment added onto the
previously accumulated integral — while the variant implementation
(line 161) advances it to the bare increment `0.5·dt·(error +
previous_error)`, discarding the previous accumulation. -/
theorem c3_candidate_integral (pid : PID) (sp meas now t : ℚ)
    (ht : pid.lastTime = some t) (hdt : 0 < now - t)
    (hdb : pid.Deadband ≤ |sp - meas|) (hAW : pid.AntiWindup = true)
    (hsat : (pid.update sp meas now).2.Saturated = false) :
    (pid.update sp meas now).2.integral =
      pid.integral + 0.5 * (now - t) * ((sp - meas) + pid.prevError) ∧
    (pid.updateV2 sp meas now).2.integral =
      0.5 * (now - t) * ((sp - meas) + pid.prevError) := by
  have h1 := PID.update_full_eq pid sp meas now t ht hdt hdb
  have h2 := PID.updateV2_full_eq pid sp meas now t ht hdt hdb
  rw [PID.rawV2_eq] at h2
  simp only [h1, PID.commitState_Saturated] at hsat
  constructor
  · simp only [h1, PID.commitState_integral, hsat, hAW]
    norm_num [PID.candidateIntegral]
  · simp only [h2, PID.commitState_integral, hsat, hAW]
    norm_num [PID.candidateIntegralV2]

/-- C3 witness: the amended claim at the concrete state `c3pid`, error `5`
and `dt = 1`: the primary implementation stores `1 + 5/2`, the variant
stores `5/2`. -/
theorem c3_witness :
    (c3pid.update 10 5 1).2.integral =
      c3pid.integral + 0.5 * ((1 : ℚ) - 0) * (((10 : ℚ) - 5) + c3pid.prevError) ∧
    (c3pid.updateV2 10 5 1).2.integral =
      0.5 * ((1 : ℚ) - 0) * (((10 : ℚ) - 5) + c3pid.prevError) :=
  c3_candidate_integral c3pid 10 5 1 0 rfl (by norm_num) (by norm_num [c3pid]) rfl
    (by
      have h := PID.update_full_eq c3pid 10 5 1 0 rfl (by norm_num) (by norm_num [c3pid])
      simp only [h, PID.commitState_Saturated]
      norm_num [c3pid, PID.clampOutput])

/-- C10 counterexample: starting from the identical state `c10pid` with
identical inputs and elapsed time, the primary implementation leaves the
accumulator at `1 + 5/2 = 7/2` while the variant leaves it at `5/2`: the
two implementations are not equivalent on the final state. -/
theorem c10_counterexample :
    (c10pid.update 10 5 1).2.integral = 7 / 2 ∧
    (c10pid.updateV2 10 5 1).2.integral = 5 / 2 ∧
    (c10pid.update 10 5 1).2.integral ≠ (c10pid.updateV2 10 5 1).2.integral := by
  have h1 := PID.update_full_eq c10pid 10 5 1 0 rfl (by norm_num) (by norm_num [c10pid])
  have h2 := PID.updateV2_full_eq c10pid 10 5 1 0 rfl (by norm_num) (by norm_num [c10pid])
  have e1 : (c10pid.update 10 5 1).2.integral = 7 / 2 := by
    simp only [h1, PID.commitState_integral]
    norm_num [c10pid, PID.clampOutput, PID.candidateIntegral]
  have e2 : (c10pid.updateV2 10 5 1).2.integral = 5 / 2 := by
    simp only [h2, PID.commitState_integral]
    norm_num [c10pid, PID.clampOutput, PID.candidateIntegralV2]
  exact ⟨e1, e2, by rw [e1, e2]; norm_num⟩

/-- C10 (amended): from any identical starting state with identical inputs
and elapsed time, the two implementations return the same output and agree
on `prevError`, `lastTime`, `lastOutput` and `Saturated`; their integral
accumulators either agree (whenever the anti-windup-guarded write does not
fire, and also when the prior accumulator is zero) or differ by exactly the
prior accumulator, the primary storing `previous + increment` where the
variant stores the bare increment. -/
theorem c10_variants_agree (pid : PID) (sp meas now : ℚ) :
    (pid.update sp meas now).1 = (pid.updateV2 sp meas now).1 ∧
    (pid.update sp meas now).2.prevError = (pid.updateV2 sp meas now).2.prevError ∧
    (pid.update sp meas now).2.lastTime = (pid.updateV2 sp meas now).2.lastTime ∧
    (pid.update sp meas now).2.lastOutput = (pid.updateV2 sp meas now).2.lastOutput ∧
    (pid.update sp meas now).2.Saturated = (pid.updateV2 sp meas now).2.Saturated ∧
    ((pid.update sp meas now).2.integral = (pid.updateV2 sp meas now).2.integral ∨
      (pid.update sp meas now).2.integral =
        pid.integral + (pid.updateV2 sp meas now).2.integral) := by
  rcases h : pid.lastTime with _ | t
  · rw [PID.update_of_unset pid sp meas now h, PID.updateV2_of_unset pid sp meas now h]
    exact ⟨rfl, rfl, rfl, rfl, rfl, Or.inl rfl⟩
  · rcases le_or_lt (now - t) 0 with hdt | hdt
    · rw [PID.update_of_dt_nonpos pid sp meas now t h hdt,
        PID.updateV2_of_dt_nonpos pid sp meas now t h hdt]
      exact ⟨rfl, rfl, rfl, rfl, rfl, Or.inl rfl⟩
    · rcases lt_or_le |sp - meas| pid.Deadband with hdb | hdb
      · rw [PID.update_of_deadband pid sp meas now t h hdt hdb,
          PID.updateV2_of_deadband pid sp meas now t h hdt hdb]
        exact ⟨rfl, rfl, rfl, rfl, rfl, Or.inl rfl⟩
      · have h2 := PID.updateV2_full_eq pid sp meas now t h hdt hdb
        rw [PID.rawV2_eq] at h2
        rw [PID.update_full_eq pid sp meas now t h hdt hdb, h2]
        simp only [PID.commitState_prevError, PID.commitState_lastTime,
          PID.commitState_lastOutput, PID.commitState_Saturated]
        refine ⟨trivial, trivial, trivial, trivial, trivial, ?_⟩
        exact commitState_integral_rel pid _ _ _ _ _ _
          (by simp [PID.candidateIntegral, PID.candidateIntegralV2])
